import Mathlib

/-!
Shallow embedding of the incremental build-file pusher (`src/main.rs`).

Timestamps model `chrono::DateTime<Utc>` values as integers (seconds).
`MIN_UTC` models `DateTime::<Utc>::MIN_UTC`; `epochDefault` models
`DateTime::<Utc>::default()` (the Unix epoch), the value produced by
`unwrap_or_default()` on an empty iterator of dates.

Filesystem results are passed in as data: `files` is the list produced by
the directory scan (each with its base name and modification time), and
`mirror` is the list of regular files under the package-mirror directory,
each as its list of path components relative to the mirror root.  The
device agent (`hdc`) subprocess is modelled by exit-status oracles: `none`
models a spawn failure (which panics in the source via `expect` /
`unwrap_or_else(panic!)`), `some code` models a spawned process that
exited with status `code`.  Note the source inspects only spawn success,
never the exit code itself.
-/

namespace Pusher

/-- Models `chrono::DateTime::<Utc>::MIN_UTC` (≈ year -262143) in seconds. -/
def MIN_UTC : Int := -8334632851200

/-- Models `DateTime::<Utc>::default()`, the Unix epoch. -/
def epochDefault : Int := 0

/-- One persisted sync record (struct `Record` in the source); the RFC3339
date string is modelled by the timestamp it parses to. -/
structure Record where
  connectkey : String
  last_modified_date : Int
deriving DecidableEq

/-- One scanned build file: absolute path, base name (`file_name()`), and
modification time read at scan time. -/
structure BuildFile where
  path : String
  name : String
  mtime : Int
deriving DecidableEq

/-- One regular file under the package-mirror root, as its path components
relative to the root (nonempty; the last component is its base name). -/
structure MirrorFile where
  relPath : List String
deriving DecidableEq

/-- Exit-status oracles for the external `hdc` subprocess: `none` = spawn
failure, `some c` = process ran and exited with status `c`. -/
structure Agent where
  remount : Option Int
  send : String → Option Int

/-- The resolved CLI arguments consumed by `run` (struct `BuilderArg`). -/
structure Args where
  connect_key : String
  force_update : Bool
  push : Bool

/-- Models `record_entry`: first record whose `connectkey` matches. -/
def record_entry (records : Option (List Record)) (key : String) : Option Record :=
  match records with
  | some rs => rs.find? (fun x => x.connectkey = key)
  | none => none

/-- Models `record_entry_exists`. -/
def record_entry_exists (records : Option (List Record)) (key : String) : Bool :=
  match records with
  | some rs => rs.any (fun x => x.connectkey = key)
  | none => false

/-- The `latest_modified_date` computed at the start of `run`: the stored
watermark, or `MIN_UTC` when no record exists for the device. -/
def watermarkOf (records : Option (List Record)) (key : String) : Int :=
  match record_entry records key with
  | none => MIN_UTC
  | some r => r.last_modified_date

/-- The change detector (the `new_files` filter in `run`): keep a file when
its mtime is `> latest` (normal mode) or `>= latest` (force mode). -/
def selectFiles (latest : Int) (force : Bool) (files : List BuildFile) : List BuildFile :=
  files.filter (fun f =>
    if force then decide (latest ≤ f.mtime) else decide (latest < f.mtime))

/-- Models `Iterator::max` on a list of dates. -/
def listMax : List Int → Option Int
  | [] => none
  | x :: xs =>
    match listMax xs with
    | none => some x
    | some m => some (max x m)

/-- Models collecting an iterator of relative `PathBuf`s into one `PathBuf`:
each relative path is pushed in turn, i.e. the component lists concatenate. -/
def concatPaths : List (List String) → List String
  | [] => []
  | p :: ps => p ++ concatPaths ps

/-- Models `find_device_path`: walk the mirror tree, keep regular files whose
base name equals `file_name`, strip the mirror-root prefix, and collect the
relative paths into a single `PathBuf`. -/
def find_device_path (mirror : List MirrorFile) (file_name : String) : List String :=
  concatPaths
    ((mirror.filter (fun e => e.relPath.getLast? = some file_name)).map
      (fun e => e.relPath))

/-- Rust `char::is_whitespace` (the Unicode `White_Space` property). -/
def rustIsWhitespace (c : Char) : Bool :=
  let n := c.val
  n = 0x9 || n = 0xa || n = 0xb || n = 0xc || n = 0xd || n = 0x20 ||
  n = 0x85 || n = 0xa0 || n = 0x1680 || (0x2000 ≤ n && n ≤ 0x200a) ||
  n = 0x2028 || n = 0x2029 || n = 0x202f || n = 0x205f || n = 0x3000

/-- Rust `str::trim`: drop leading and trailing whitespace characters. -/
def rustTrim (s : String) : String :=
  String.mk (((s.data.dropWhile rustIsWhitespace).reverse.dropWhile
    rustIsWhitespace).reverse)

/-- Models `decide_send_by_user`: read a line, trim it, and answer yes
exactly on `"y"`, `"Y"` or the empty string. -/
def decide_send_by_user (input : String) : Bool :=
  let t := rustTrim input
  t == "y" || t == "Y" || t == ""

/-- Models the in-place update through `record_entry_mut`: the first record
whose `connectkey` matches gets its `last_modified_date` replaced. -/
def updateFirst (rs : List Record) (key : String) (d : Int) : List Record :=
  match rs with
  | [] => []
  | r :: rest =>
    if r.connectkey = key then { r with last_modified_date := d } :: rest
    else r :: updateFirst rest key d

/-- The record-mutation block of `run` (lines 310-329): update the existing
record for the device, or append / create a fresh one. -/
def upsert (records : Option (List Record)) (key : String) (d : Int) : List Record :=
  match records with
  | some rs =>
    if rs.any (fun x => x.connectkey = key) then updateFirst rs key d
    else rs ++ [{ connectkey := key, last_modified_date := d }]
  | none => [{ connectkey := key, last_modified_date := d }]

/-- The per-file `hdc file send` loop: panics (`none`) on the first spawn
failure; exit statuses are never inspected. -/
def sendAll (agent : Agent) : List (BuildFile × List String) → Option Unit
  | [] => some ()
  | (f, _) :: rest =>
    match agent.send f.path with
    | none => none
    | some _ => sendAll agent rest

/-- The decide-and-send block of `run` (lines 264-307): when the plan is
nonempty and a prior record exists, decide (forced or interactive) and, on
yes, remount then send every plan entry.  Returns `none` on a subprocess
spawn failure (panic), otherwise `some sent`. -/
def sendDecision (push : Bool) (userInput : String) (agent : Agent) (gate : Bool)
    (plan : List (BuildFile × List String)) : Option Bool :=
  if gate then
    if push || decide_send_by_user userInput then
      match agent.remount with
      | none => none
      | some _ =>
        match sendAll agent plan with
        | none => none
        | some _ => some true
    else some false
  else some false

/-- Observable outcome of one `run`: final in-memory records, whether the
record file was rewritten, whether a send happened, the selected files, the
push plan, whether the user was prompted, and whether the device agent was
invoked. -/
structure RunResult where
  records : Option (List Record)
  wrote : Bool
  sent : Bool
  newFiles : List BuildFile
  plan : List (BuildFile × List String)
  prompted : Bool
  agentInvoked : Bool
deriving DecidableEq

/-- Models `BuildFilePusher::run` after the records have been read and the
directories scanned: change detection, device-path mapping, the send
decision and subprocess calls, and the record update.  `none` models a
panic (subprocess spawn failure). -/
def run (args : Args) (records : Option (List Record)) (files : List BuildFile)
    (mirror : List MirrorFile) (userInput : String) (agent : Agent) :
    Option RunResult :=
  let latest := watermarkOf records args.connect_key
  let new_files := selectFiles latest args.force_update files
  let new_modified_date := (listMax (new_files.map (fun f => f.mtime))).getD epochDefault
  let build_file_map := new_files.map (fun f => (f, find_device_path mirror f.name))
  let gate := !build_file_map.isEmpty && record_entry_exists records args.connect_key
  (sendDecision args.push userInput agent gate build_file_map).map (fun send =>
    if send || !record_entry_exists records args.connect_key then
      { records := some (upsert records args.connect_key new_modified_date)
        wrote := true
        sent := send
        newFiles := new_files
        plan := build_file_map
        prompted := gate && !args.push
        agentInvoked := send }
    else
      { records := records
        wrote := false
        sent := send
        newFiles := new_files
        plan := build_file_map
        prompted := gate && !args.push
        agentInvoked := send })

/-- An agent whose every subprocess spawns and exits with status 0. -/
def idleAgent : Agent := ⟨some 0, fun _ => some 0⟩

/-- An agent whose subprocesses all spawn but exit with status 1. -/
def failingAgent : Agent := ⟨some 0, fun _ => some 1⟩

/-- The records list carried by an optional store (absent file = empty). -/
def recordsList (records : Option (List Record)) : List Record :=
  records.getD []

/-- The store invariant: no two records share a `connectkey`. -/
def distinctKeys (rs : List Record) : Prop :=
  (rs.map (fun r => r.connectkey)).Nodup

/-- A boolean `any` agrees with `isSome` of `find?`. -/
theorem any_eq_find?_isSome (p : Record → Bool) (rs : List Record) :
    rs.any p = (rs.find? p).isSome := by
  induction rs with
  | nil => rfl
  | cons r rest ih =>
    cases hp : p r <;>
      simp [List.any_cons, List.find?_cons_of_pos, List.find?_cons_of_neg, hp, ih]

/-- Record existence agrees with lookup success. -/
theorem record_entry_exists_eq_isSome (records : Option (List Record)) (key : String) :
    record_entry_exists records key = (record_entry records key).isSome := by
  cases records with
  | none => rfl
  | some rs => exact any_eq_find?_isSome _ rs

/-- After `updateFirst` on a store containing the key, lookup returns the
freshly-dated record. -/
theorem find?_updateFirst (rs : List Record) (key : String) (d : Int)
    (h : rs.any (fun x => x.connectkey = key) = true) :
    (updateFirst rs key d).find? (fun x => x.connectkey = key) = some ⟨key, d⟩ := by
  induction rs with
  | nil => simp at h
  | cons r rest ih =>
    by_cases hr : r.connectkey = key
    · simp [updateFirst, hr, List.find?_cons_of_pos]
    · have hrest : rest.any (fun x => x.connectkey = key) = true := by
        simpa [List.any_cons, hr] using h
      simp [updateFirst, hr, List.find?_cons_of_neg, ih hrest]

/-- Looking up the device after `upsert` always yields the new watermark. -/
theorem record_entry_upsert (records : Option (List Record)) (key : String) (d : Int) :
    record_entry (some (upsert records key d)) key = some ⟨key, d⟩ := by
  cases records with
  | none => simp [record_entry, upsert, List.find?]
  | some rs =>
    by_cases h : rs.any (fun x => x.connectkey = key) = true
    · simp [record_entry, upsert, h, find?_updateFirst]
    · have hnone : rs.find? (fun x => x.connectkey = key) = none := by
        rw [any_eq_find?_isSome] at h
        exact Option.not_isSome_iff_eq_none.1 (by simpa using h)
      simp [record_entry, upsert, h, List.find?_append, hnone, List.find?]

/-- The device's record exists after `upsert`. -/
theorem record_entry_exists_upsert (records : Option (List Record)) (key : String)
    (d : Int) :
    record_entry_exists (some (upsert records key d)) key = true := by
  rw [record_entry_exists_eq_isSome, record_entry_upsert]
  rfl

/-- Membership in the change-detector output. -/
theorem mem_selectFiles {latest : Int} {force : Bool} {files : List BuildFile}
    {f : BuildFile} :
    f ∈ selectFiles latest force files ↔
      f ∈ files ∧ (if force then latest ≤ f.mtime else latest < f.mtime) := by
  cases force <;> simp [selectFiles, List.mem_filter]

/-- Every selected file's mtime is at least the watermark (both modes). -/
theorem selected_latest_le {latest : Int} {force : Bool} {files : List BuildFile}
    {f : BuildFile} (h : f ∈ selectFiles latest force files) : latest ≤ f.mtime := by
  rcases mem_selectFiles.1 h with ⟨-, h2⟩
  cases force with
  | false => exact le_of_lt h2
  | true => exact h2

/-- Every unselected file's mtime is at most the watermark (both modes). -/
theorem unselected_mtime_le {latest : Int} {force : Bool} {files : List BuildFile}
    {f : BuildFile} (hf : f ∈ files) (h : f ∉ selectFiles latest force files) :
    f.mtime ≤ latest := by
  by_contra hc
  push_neg at hc
  refine h (mem_selectFiles.2 ⟨hf, ?_⟩)
  cases force with
  | false => exact hc
  | true => exact le_of_lt hc

/-- Any member of a list is bounded by its `listMax`. -/
theorem le_listMax {l : List Int} {x : Int} (h : x ∈ l) :
    ∃ m, listMax l = some m ∧ x ≤ m := by
  induction l with
  | nil => simp at h
  | cons y ys ih =>
    rcases List.mem_cons.1 h with rfl | hx
    · cases hm : listMax ys with
      | none => exact ⟨x, by simp [listMax, hm], le_refl x⟩
      | some m => exact ⟨max x m, by simp [listMax, hm], le_max_left x m⟩
    · rcases ih hx with ⟨m, hm, hle⟩
      exact ⟨max y m, by simp [listMax, hm], le_trans hle (le_max_right y m)⟩

/-- `listMax` returns a member of the list. -/
theorem listMax_mem {l : List Int} {m : Int} (h : listMax l = some m) : m ∈ l := by
  induction l generalizing m with
  | nil => simp [listMax] at h
  | cons y ys ih =>
    cases hm : listMax ys with
    | none =>
      rw [listMax, hm] at h
      exact (Option.some_inj.1 h) ▸ List.mem_cons_self y ys
    | some m' =>
      rw [listMax, hm] at h
      rcases max_choice y m' with hmax | hmax <;>
        rw [← Option.some_inj.1 h, hmax]
      · exact List.mem_cons_self y ys
      · exact List.mem_cons_of_mem y (ih hm)

/-- Mapping does not change emptiness. -/
theorem isEmpty_map {α β : Type} (g : α → β) (l : List α) :
    (l.map g).isEmpty = l.isEmpty := by
  cases l <;> rfl

/-- A list whose `isEmpty` is `false` is not `[]`. -/
theorem ne_nil_of_isEmpty_eq_false {α : Type} {l : List α} (h : l.isEmpty = false) :
    l ≠ [] := by
  intro he
  subst he
  simp at h

/-- With the gate closed, the decide-and-send block does nothing. -/
theorem sendDecision_gate_false (push : Bool) (ui : String) (agent : Agent)
    (plan : List (BuildFile × List String)) :
    sendDecision push ui agent false plan = some false := rfl

/-- A send can only happen when the gate (nonempty plan and prior record) is open. -/
theorem sendDecision_some_true_gate {push : Bool} {ui : String} {agent : Agent}
    {gate : Bool} {plan : List (BuildFile × List String)}
    (h : sendDecision push ui agent gate plan = some true) : gate = true := by
  cases gate
  · rw [sendDecision_gate_false] at h
    simp at h
  · rfl

/-- An absent record means the watermark defaults to `MIN_UTC`. -/
theorem watermarkOf_not_exists {records : Option (List Record)} {key : String}
    (h : record_entry_exists records key = false) :
    watermarkOf records key = MIN_UTC := by
  rw [record_entry_exists_eq_isSome] at h
  unfold watermarkOf
  cases hre : record_entry records key with
  | none => rfl
  | some r =>
    rw [hre] at h
    simp at h

/-- Structural inversion of `run`: what each successful outcome tells us about
selection, the plan, the gate, and the record mutation. -/
theorem run_inv {args : Args} {records : Option (List Record)} {files : List BuildFile}
    {mirror : List MirrorFile} {ui : String} {agent : Agent} {res : RunResult}
    (h : run args records files mirror ui agent = some res) :
    res.newFiles = selectFiles (watermarkOf records args.connect_key)
        args.force_update files ∧
    res.plan = res.newFiles.map (fun f => (f, find_device_path mirror f.name)) ∧
    (res.sent = true →
      record_entry_exists records args.connect_key = true ∧ res.newFiles ≠ []) ∧
    ((res.sent = true ∨ record_entry_exists records args.connect_key = false) →
      res.wrote = true ∧
      res.records = some (upsert records args.connect_key
        ((listMax (res.newFiles.map (fun f => f.mtime))).getD epochDefault))) ∧
    (res.sent = false → record_entry_exists records args.connect_key = true →
      res.wrote = false ∧ res.records = records) := by
  simp only [run] at h
  rw [Option.map_eq_some'] at h
  obtain ⟨send, hsd, hres⟩ := h
  cases hex : record_entry_exists records args.connect_key with
  | false =>
    rw [hex] at hsd
    rw [Bool.and_false] at hsd
    rw [sendDecision_gate_false] at hsd
    replace hsd := Option.some_inj.1 hsd
    subst hsd
    rw [hex] at hres
    simp only [Bool.not_false, Bool.or_true, if_true] at hres
    subst hres
    refine ⟨rfl, rfl, ?_, fun _ => ⟨rfl, rfl⟩, ?_⟩
    · intro hs
      exact absurd hs (by simp)
    · intro _ hexv
      exact absurd hexv (by simp)
  | true =>
    rw [hex] at hres
    simp only [Bool.not_true, Bool.or_false] at hres
    cases hsendv : send with
    | false =>
      subst hsendv
      simp only [if_neg (by simp : ¬(false = true))] at hres
      subst hres
      refine ⟨rfl, rfl, ?_, ?_, fun _ _ => ⟨rfl, rfl⟩⟩
      · intro hs
        exact absurd hs (by simp)
      · intro hor
        rcases hor with hs | hexv
        · exact absurd hs (by simp)
        · exact absurd hexv (by simp)
    | true =>
      subst hsendv
      simp only [if_pos rfl] at hres
      subst hres
      refine ⟨rfl, rfl, ?_, fun _ => ⟨rfl, rfl⟩, ?_⟩
      · intro _
        refine ⟨rfl, ?_⟩
        have hgate := sendDecision_some_true_gate hsd
        rw [Bool.and_eq_true] at hgate
        obtain ⟨h1, -⟩ := hgate
        rw [isEmpty_map] at h1
        exact ne_nil_of_isEmpty_eq_false (by simpa using h1)
      · intro hs _
        exact absurd hs (by simp)

/-- Every scanned file's mtime is bounded by the new watermark, provided the
selection is nonempty or the old watermark is at most the epoch default. -/
theorem mtime_le_new_watermark {latest : Int} {force : Bool} {files : List BuildFile}
    (hcase : selectFiles latest force files ≠ [] ∨ latest ≤ epochDefault) :
    ∀ f ∈ files, f.mtime ≤
      (listMax ((selectFiles latest force files).map (fun f => f.mtime))).getD
        epochDefault := by
  intro f hf
  by_cases hmem : f ∈ selectFiles latest force files
  · obtain ⟨m, hm, hxm⟩ := le_listMax (List.mem_map_of_mem (fun f => f.mtime) hmem)
    rw [hm]
    exact hxm
  · have hle : f.mtime ≤ latest := unselected_mtime_le hf hmem
    refine le_trans hle ?_
    rcases hne : selectFiles latest force files with _ | ⟨g, gs⟩
    · rcases hcase with hcne | hmin
      · exact absurd hne hcne
      · simpa [listMax] using hmin
    · have hg : g ∈ selectFiles latest force files := by
        rw [hne]
        exact List.mem_cons_self g gs
      obtain ⟨m, hm, hgm⟩ := le_listMax (List.mem_map_of_mem (fun f => f.mtime) hg)
      rw [hne] at hm
      rw [hm]
      exact le_trans (selected_latest_le hg) hgm

/-- A run that rewrote the record file leaves the device with a watermark at
least every scanned file's mtime. -/
theorem wrote_watermark_bound {args : Args} {records : Option (List Record)}
    {files : List BuildFile} {mirror : List MirrorFile} {ui : String} {agent : Agent}
    {res : RunResult} (h : run args records files mirror ui agent = some res)
    (hw : res.wrote = true) :
    ∃ d, record_entry res.records args.connect_key = some ⟨args.connect_key, d⟩ ∧
      ∀ f ∈ files, f.mtime ≤ d := by
  obtain ⟨hnew, -, hgate, hthen, helse⟩ := run_inv h
  cases hex : record_entry_exists records args.connect_key with
  | false =>
    obtain ⟨-, hrecs⟩ := hthen (Or.inr hex)
    refine ⟨_, by rw [hrecs]; exact record_entry_upsert records args.connect_key _, ?_⟩
    rw [hnew, watermarkOf_not_exists hex]
    exact mtime_le_new_watermark (Or.inr (by rw [MIN_UTC, epochDefault]; norm_num))
  | true =>
    cases hsendv : res.sent with
    | false =>
      obtain ⟨hwf, -⟩ := helse hsendv hex
      rw [hwf] at hw
      exact absurd hw (by simp)
    | true =>
      obtain ⟨-, hrecs⟩ := hthen (Or.inl hsendv)
      obtain ⟨-, hne⟩ := hgate hsendv
      refine ⟨_, by rw [hrecs]; exact record_entry_upsert records args.connect_key _, ?_⟩
      rw [hnew]
      refine mtime_le_new_watermark (Or.inl ?_)
      rw [← hnew]
      exact hne

/-- `updateFirst` never changes the key sequence. -/
theorem updateFirst_map_keys (rs : List Record) (key : String) (d : Int) :
    (updateFirst rs key d).map (fun r => r.connectkey) =
      rs.map (fun r => r.connectkey) := by
  induction rs with
  | nil => rfl
  | cons r rest ih =>
    by_cases hr : r.connectkey = key
    · simp [updateFirst, hr]
    · simp [updateFirst, hr, ih]

/-- `updateFirst` never changes the number of records. -/
theorem updateFirst_length (rs : List Record) (key : String) (d : Int) :
    (updateFirst rs key d).length = rs.length := by
  have := congrArg List.length (updateFirst_map_keys rs key d)
  simpa using this

/-- `upsert` preserves the one-record-per-device invariant. -/
theorem upsert_distinctKeys (records : Option (List Record)) (key : String) (d : Int)
    (hd : distinctKeys (recordsList records)) :
    distinctKeys (upsert records key d) := by
  cases records with
  | none => simp [upsert, distinctKeys]
  | some rs =>
    by_cases h : rs.any (fun x => x.connectkey = key) = true
    · unfold distinctKeys
      rw [upsert]
      rw [if_pos h, updateFirst_map_keys]
      exact hd
    · unfold distinctKeys
      rw [upsert]
      rw [if_neg h, List.map_append]
      rw [List.nodup_append]
      refine ⟨hd, List.nodup_singleton key, ?_⟩
      intro a ha hb
      simp only [List.map_cons, List.map_nil, List.mem_singleton] at hb
      subst hb
      rcases List.mem_map.1 ha with ⟨r, hr, hrk⟩
      exact h (List.any_eq_true.2 ⟨r, hr, by simp [hrk]⟩)

/-- When the device already has a record, `upsert` keeps the store size. -/
theorem upsert_length_exists (rs : List Record) (key : String) (d : Int)
    (h : record_entry_exists (some rs) key = true) :
    (upsert (some rs) key d).length = rs.length := by
  have h' : (rs.any fun x => decide (x.connectkey = key)) = true := h
  rw [upsert, if_pos h']
  exact updateFirst_length rs key d

/-- When the device has no record, `upsert` adds exactly one. -/
theorem upsert_length_new (records : Option (List Record)) (key : String) (d : Int)
    (h : record_entry_exists records key = false) :
    (upsert records key d).length = (recordsList records).length + 1 := by
  cases records with
  | none => rfl
  | some rs =>
    have h' : (rs.any fun x => decide (x.connectkey = key)) = false := h
    rw [upsert, if_neg (by rw [h']; simp)]
    simp [recordsList]

/-- C1: the claim says a non-zero agent exit status aborts the run and leaves
the watermark alone.  The code checks only spawn success (`status()` wrapped
in `expect`/`unwrap_or_else`), so with every transfer exiting with status 1
the run still completes, reports the files as sent, and advances the
persisted watermark from 0 to 5. -/
theorem c1_agent_nonzero_exit_not_fatal :
    (run ⟨"dev", false, true⟩ (some [⟨"dev", 0⟩])
        [⟨"/b/out/a", "a", 5⟩, ⟨"/b/out/b", "b", 4⟩, ⟨"/b/out/c", "c", 3⟩]
        [⟨["bin", "a"]⟩, ⟨["bin", "b"]⟩, ⟨["bin", "c"]⟩] "" failingAgent).map
      (fun r => (r.sent, r.wrote, r.records)) =
      some (true, true, some [⟨"dev", 5⟩]) ∧
    failingAgent.remount = some 0 ∧ failingAgent.send "/b/out/a" = some 1 :=
  ⟨by decide, rfl, rfl⟩

/-- C2: the claim says a selected file whose base name has zero matches in the
package mirror is dropped from the push plan.  The code (see its own
`FIXME: logic error here` / `TODO: detect unmapped file` comments) keeps the
entry, mapping the file to the empty device path. -/
theorem c2_zero_match_file_kept_in_plan :
    (run ⟨"dev", false, false⟩ (some [⟨"dev", 0⟩]) [⟨"/b/out/foo.txt", "foo.txt", 5⟩]
        [⟨["bin", "bar.so"]⟩] "n" idleAgent).map RunResult.plan =
      some [(⟨"/b/out/foo.txt", "foo.txt", 5⟩, [])] ∧
    find_device_path [⟨["bin", "bar.so"]⟩] "foo.txt" = [] :=
  ⟨by decide, by decide⟩

/-- C3: the claim says multiple mirror matches are surfaced as an error and
never merged.  The code collects all matching relative paths into a single
`PathBuf`, silently concatenating `bin/foo.so` and `lib/foo.so` into the
unusable path `bin/foo.so/lib/foo.so`. -/
theorem c3_multi_match_concatenated :
    find_device_path [⟨["bin", "foo.so"]⟩, ⟨["lib", "foo.so"]⟩] "foo.so" =
      ["bin", "foo.so", "lib", "foo.so"] ∧
    find_device_path [⟨["bin", "foo.so"]⟩, ⟨["lib", "foo.so"]⟩] "foo.so" ≠
      ["bin", "foo.so"] ∧
    find_device_path [⟨["bin", "foo.so"]⟩, ⟨["lib", "foo.so"]⟩] "foo.so" ≠
      ["lib", "foo.so"] :=
  ⟨by decide, by decide, by decide⟩

/-- C4 counterexample: the claim says that with an empty scanned set the store
is unaffected.  On a first run with an empty scan the code still appends a
record (watermark = `DateTime::default()`, the Unix epoch) and rewrites the
record file, so the store is affected. -/
theorem c4_empty_scan_store_changed :
    (run ⟨"dev", false, false⟩ none [] [] "" idleAgent).map
        (fun r => (r.records, r.wrote)) =
      some (some [⟨"dev", epochDefault⟩], true) ∧
    (run ⟨"dev", false, false⟩ none [] [] "" idleAgent).map (fun r => r.records) ≠
      some none :=
  ⟨by decide, by decide⟩

/-- C4 amended: for a device with no prior record, one run writes a record
whose watermark is the maximum mtime among the scanned files (all scanned
mtimes exceed `MIN_UTC`, so the selection is the whole scan), and when the
scanned set is empty a record is still appended with the epoch default. -/
theorem c4_first_run_record_amended (args : Args) (records : Option (List Record))
    (files : List BuildFile) (mirror : List MirrorFile) (ui : String) (agent : Agent)
    (h : record_entry_exists records args.connect_key = false)
    (hm : ∀ f ∈ files, MIN_UTC < f.mtime) :
    (run args records files mirror ui agent).map
      (fun r => (r.wrote, record_entry r.records args.connect_key)) =
      some (true, some ⟨args.connect_key,
        (listMax (files.map (fun f => f.mtime))).getD epochDefault⟩) := by
  have hsel : selectFiles (watermarkOf records args.connect_key) args.force_update files
      = files := by
    rw [watermarkOf_not_exists h]
    simp only [selectFiles]
    apply List.filter_eq_self.2
    intro f hf
    cases args.force_update
    · simpa using hm f hf
    · simpa using le_of_lt (hm f hf)
  simp [run, hsel, h, sendDecision_gate_false, record_entry_upsert]

/-- C4 amended, witnessed at a concrete first run with one scanned file. -/
theorem c4_first_run_record_witness :
    record_entry_exists none "dev" = false ∧
    (run ⟨"dev", false, false⟩ none [⟨"/b/out/a", "a", 5⟩] [] "" idleAgent).map
        (fun r => (r.wrote, record_entry r.records "dev")) =
      some (true, some ⟨"dev",
        (listMax ([⟨"/b/out/a", "a", 5⟩].map (fun f => BuildFile.mtime f))).getD
          epochDefault⟩) :=
  ⟨rfl, c4_first_run_record_amended ⟨"dev", false, false⟩ none [⟨"/b/out/a", "a", 5⟩]
    [] "" idleAgent rfl (by decide)⟩

/-- C5: a file whose mtime equals the device watermark is selected exactly in
force mode, and an absent record makes the watermark `MIN_UTC`. -/
theorem c5_strict_vs_force_boundary (records : Option (List Record)) (key : String)
    (files : List BuildFile) (force : Bool) (f : BuildFile)
    (hf : f ∈ files) (hw : f.mtime = watermarkOf records key) :
    ((f ∈ selectFiles (watermarkOf records key) force files) ↔ force = true) ∧
    (record_entry records key = none → watermarkOf records key = MIN_UTC) := by
  constructor
  · rw [mem_selectFiles]
    cases force
    · simp [hf, hw]
    · simp [hf, hw]
  · intro h
    unfold watermarkOf
    rw [h]

/-- C5, witnessed at a concrete store and file on the boundary. -/
theorem c5_boundary_witness :
    (((⟨"/b/a", "a", 7⟩ : BuildFile) ∈
        selectFiles (watermarkOf (some [⟨"dev", 7⟩]) "dev") true [⟨"/b/a", "a", 7⟩]) ↔
      true = true) ∧
    (record_entry (some [⟨"dev", 7⟩]) "dev" = none →
      watermarkOf (some [⟨"dev", 7⟩]) "dev" = MIN_UTC) :=
  c5_strict_vs_force_boundary (some [⟨"dev", 7⟩]) "dev" [⟨"/b/a", "a", 7⟩] true
    ⟨"/b/a", "a", 7⟩ (by decide) (by decide)

/-- C6: on a run for a device with no prior record, whatever the files and
flags, the user is never prompted, the agent is never invoked, and a baseline
record is still written. -/
theorem c6_first_run_no_prompt_no_agent (args : Args) (records : Option (List Record))
    (files : List BuildFile) (mirror : List MirrorFile) (ui : String) (agent : Agent)
    (h : record_entry_exists records args.connect_key = false) :
    (run args records files mirror ui agent).map
      (fun r => (r.prompted, r.agentInvoked, r.wrote,
        record_entry_exists r.records args.connect_key)) =
      some (false, false, true, true) := by
  simp [run, h, sendDecision_gate_false, record_entry_exists_upsert]

/-- C6, witnessed with five new files and both flags set. -/
theorem c6_first_run_witness :
    (run ⟨"dev", true, true⟩ none
        [⟨"/b/1", "1", 1⟩, ⟨"/b/2", "2", 2⟩, ⟨"/b/3", "3", 3⟩, ⟨"/b/4", "4", 4⟩,
          ⟨"/b/5", "5", 5⟩] [⟨["bin", "1"]⟩] "" idleAgent).map
      (fun r => (r.prompted, r.agentInvoked, r.wrote,
        record_entry_exists r.records "dev")) =
      some (false, false, true, true) :=
  c6_first_run_no_prompt_no_agent ⟨"dev", true, true⟩ none
    [⟨"/b/1", "1", 1⟩, ⟨"/b/2", "2", 2⟩, ⟨"/b/3", "3", 3⟩, ⟨"/b/4", "4", 4⟩,
      ⟨"/b/5", "5", 5⟩] [⟨["bin", "1"]⟩] "" idleAgent rfl

/-- C10: the interactive confirmation answers yes exactly when the trimmed
input line is `"y"`, `"Y"` or empty; spelled-out affirmatives answer no. -/
theorem c10_confirmation_semantics :
    (∀ input : String,
      decide_send_by_user input = true ↔
        (rustTrim input = "y" ∨ rustTrim input = "Y" ∨ rustTrim input = "")) ∧
    decide_send_by_user "yes" = false ∧ decide_send_by_user "no" = false ∧
    decide_send_by_user "n" = false ∧ decide_send_by_user " y \n" = true ∧
    decide_send_by_user "Y" = true ∧ decide_send_by_user "\n" = true := by
  refine ⟨?_, by decide, by decide, by decide, by decide, by decide, by decide⟩
  intro input
  simp [decide_send_by_user, or_assoc]

/-- C7 counterexample: a first run whose prompt is declined leaves the store
untouched, so an immediately repeated run over the unchanged filesystem
selects the same (nonzero) file set again — not zero files. -/
theorem c7_second_run_selects_again :
    ((run ⟨"dev", false, false⟩ (some [⟨"dev", 0⟩]) [⟨"/b/a", "a", 5⟩] [⟨["bin", "a"]⟩]
        "n" idleAgent).bind
      (fun r1 => run ⟨"dev", false, false⟩ r1.records [⟨"/b/a", "a", 5⟩]
        [⟨["bin", "a"]⟩] "n" idleAgent)).map
      (fun r2 => (r2.newFiles.length, r2.records, r2.wrote)) =
      some (1, some [⟨"dev", 0⟩], false) := by decide

/-- C7 amended: when the first run actually updated the record store (a send
happened or a first-run baseline was written), a second normal-mode run over
the unchanged file set selects zero files and leaves the store untouched;
and any run with a prior record and no send leaves the store untouched. -/
theorem c7_idempotence_amended :
    (∀ (args : Args) (records : Option (List Record)) (files : List BuildFile)
        (mirror : List MirrorFile) (ui ui2 : String) (agent agent2 : Agent)
        (res1 : RunResult),
      args.force_update = false →
      run args records files mirror ui agent = some res1 →
      res1.wrote = true →
      (run args res1.records files mirror ui2 agent2).map
        (fun r => (r.newFiles, r.records, r.wrote)) =
        some ([], res1.records, false)) ∧
    (∀ (args : Args) (records : Option (List Record)) (files : List BuildFile)
        (mirror : List MirrorFile) (ui : String) (agent : Agent) (res : RunResult),
      run args records files mirror ui agent = some res →
      res.sent = false → record_entry_exists records args.connect_key = true →
      res.records = records ∧ res.wrote = false) := by
  constructor
  · intro args records files mirror ui ui2 agent agent2 res1 hforce hrun hw
    obtain ⟨d, hentry, hbound⟩ := wrote_watermark_bound hrun hw
    have hex2 : record_entry_exists res1.records args.connect_key = true := by
      rw [record_entry_exists_eq_isSome, hentry]
      rfl
    have hlat2 : watermarkOf res1.records args.connect_key = d := by
      unfold watermarkOf
      rw [hentry]
    have hsel2 : selectFiles d args.force_update files = [] := by
      rw [hforce]
      simp only [selectFiles]
      rw [List.filter_eq_nil_iff]
      intro f hf
      simpa using not_lt.2 (hbound f hf)
    simp [run, hlat2, hsel2, hex2, sendDecision_gate_false]
  · intro args records files mirror ui agent res hrun hsent hex
    obtain ⟨-, -, -, -, helse⟩ := run_inv hrun
    obtain ⟨h1, h2⟩ := helse hsent hex
    exact ⟨h2, h1⟩

/-- C7 amended, witnessed: after a concrete baseline-writing first run, the
second run selects nothing and leaves the store alone. -/
theorem c7_idempotence_witness :
    (run ⟨"dev", false, false⟩ (some [⟨"dev", (5 : Int)⟩]) [⟨"/b/a", "a", 5⟩] [] ""
        idleAgent).map (fun r => (r.newFiles, r.records, r.wrote)) =
      some ([], some [⟨"dev", (5 : Int)⟩], false) :=
  c7_idempotence_amended.1 ⟨"dev", false, false⟩ none [⟨"/b/a", "a", 5⟩] [] "" ""
    idleAgent idleAgent
    ⟨some [⟨"dev", 5⟩], true, false, [⟨"/b/a", "a", 5⟩], [(⟨"/b/a", "a", 5⟩, [])],
      false, false⟩
    rfl (by decide) rfl

/-- C8: whenever a run rewrites the record of a device that already had one,
the new persisted watermark is at least the previous one. -/
theorem c8_watermark_monotone (args : Args) (records : Option (List Record))
    (files : List BuildFile) (mirror : List MirrorFile) (ui : String) (agent : Agent)
    (res : RunResult) (r : Record)
    (hr : record_entry records args.connect_key = some r)
    (hrun : run args records files mirror ui agent = some res)
    (hw : res.wrote = true) :
    record_entry res.records args.connect_key =
      some ⟨args.connect_key, watermarkOf res.records args.connect_key⟩ ∧
    r.last_modified_date ≤ watermarkOf res.records args.connect_key := by
  obtain ⟨hnew, -, hgate, hthen, helse⟩ := run_inv hrun
  have hex : record_entry_exists records args.connect_key = true := by
    rw [record_entry_exists_eq_isSome, hr]
    rfl
  cases hsendv : res.sent with
  | false =>
    obtain ⟨hwf, -⟩ := helse hsendv hex
    rw [hwf] at hw
    exact absurd hw (by simp)
  | true =>
    obtain ⟨-, hrecs⟩ := hthen (Or.inl hsendv)
    obtain ⟨-, hne⟩ := hgate hsendv
    have hentry := record_entry_upsert records args.connect_key
      ((listMax (res.newFiles.map (fun f => f.mtime))).getD epochDefault)
    have hwm : watermarkOf res.records args.connect_key =
        (listMax (res.newFiles.map (fun f => f.mtime))).getD epochDefault := by
      unfold watermarkOf
      rw [hrecs, hentry]
    constructor
    · rw [hwm, hrecs]
      exact hentry
    · rw [hwm]
      rcases hns : res.newFiles with _ | ⟨g, gs⟩
      · exact absurd hns hne
      · have hg : g ∈ res.newFiles := by
          rw [hns]
          exact List.mem_cons_self g gs
        obtain ⟨m, hmax, hgm⟩ := le_listMax (List.mem_map_of_mem (fun f => f.mtime) hg)
        rw [hns] at hmax
        rw [hmax]
        have hgsel : g ∈ selectFiles (watermarkOf records args.connect_key)
            args.force_update files := by
          rw [← hnew]
          exact hg
        have hlatle := selected_latest_le hgsel
        have hlat : watermarkOf records args.connect_key = r.last_modified_date := by
          unfold watermarkOf
          rw [hr]
        rw [hlat] at hlatle
        exact le_trans hlatle hgm

/-- C8, witnessed at a concrete forced send advancing the watermark 0 → 5. -/
theorem c8_watermark_monotone_witness :
    record_entry (some [⟨"dev", (5 : Int)⟩]) "dev" =
      some ⟨"dev", watermarkOf (some [⟨"dev", (5 : Int)⟩]) "dev"⟩ ∧
    (⟨"dev", (0 : Int)⟩ : Record).last_modified_date ≤
      watermarkOf (some [⟨"dev", (5 : Int)⟩]) "dev" :=
  c8_watermark_monotone ⟨"dev", false, true⟩ (some [⟨"dev", 0⟩]) [⟨"/b/a", "a", 5⟩]
    [⟨["bin", "a"]⟩] "" idleAgent
    ⟨some [⟨"dev", 5⟩], true, true, [⟨"/b/a", "a", 5⟩], [(⟨"/b/a", "a", 5⟩, ["bin", "a"])],
      false, true⟩
    ⟨"dev", 0⟩ (by decide) (by decide) rfl

/-- C9: starting from a store with at most one record per device, a run
preserves that invariant, updating in place (same size) when the device had a
record and appending exactly one otherwise. -/
theorem c9_at_most_one_record (args : Args) (records : Option (List Record))
    (files : List BuildFile) (mirror : List MirrorFile) (ui : String) (agent : Agent)
    (res : RunResult) (hd : distinctKeys (recordsList records))
    (hrun : run args records files mirror ui agent = some res) :
    distinctKeys (recordsList res.records) ∧
    (record_entry_exists records args.connect_key = true →
      (recordsList res.records).length = (recordsList records).length) ∧
    (record_entry_exists records args.connect_key = false →
      (recordsList res.records).length = (recordsList records).length + 1) := by
  obtain ⟨-, -, -, hthen, helse⟩ := run_inv hrun
  cases hex : record_entry_exists records args.connect_key with
  | false =>
    obtain ⟨-, hrecs⟩ := hthen (Or.inr hex)
    rw [hrecs]
    refine ⟨upsert_distinctKeys records args.connect_key _ hd, ?_, ?_⟩
    · intro habs
      exact absurd habs (by simp)
    · intro _
      exact upsert_length_new records args.connect_key _ hex
  | true =>
    cases hsendv : res.sent with
    | true =>
      obtain ⟨-, hrecs⟩ := hthen (Or.inl hsendv)
      rw [hrecs]
      cases records with
      | none => simp [record_entry_exists] at hex
      | some rs =>
        refine ⟨upsert_distinctKeys (some rs) args.connect_key _ hd, fun _ => ?_, ?_⟩
        · exact upsert_length_exists rs args.connect_key _ hex
        · intro habs
          exact absurd habs (by simp)
    | false =>
      obtain ⟨-, hrecs⟩ := helse hsendv hex
      rw [hrecs]
      exact ⟨hd, fun _ => rfl, fun habs => absurd habs (by simp)⟩

/-- C9, witnessed at a concrete first run appending the single baseline
record to an empty store. -/
theorem c9_at_most_one_record_witness :
    distinctKeys (recordsList (some [⟨"dev", epochDefault⟩])) ∧
    ((record_entry_exists none "dev" = true →
        (recordsList (some [⟨"dev", epochDefault⟩])).length =
          (recordsList none).length) ∧
     (record_entry_exists none "dev" = false →
        (recordsList (some [⟨"dev", epochDefault⟩])).length =
          (recordsList none).length + 1)) :=
  c9_at_most_one_record ⟨"dev", false, false⟩ none [] [] "" idleAgent
    ⟨some [⟨"dev", epochDefault⟩], true, false, [], [], false, false⟩
    (by simp [distinctKeys, recordsList]) (by decide)

end Pusher
